import Mathlib

/-!
Shallow embedding of the packet-relay program (`src/main.go`) and proofs of
the specification's claims about it.

The program is a fan-out relay: a supervisor (`main`) starts one worker per
configured listener; a UDP listener reads datagrams into a reusable
1024-byte buffer and, per datagram, spawns one forwarding goroutine per
configured target; a TCP listener accepts connections and hands each to
`handleTCPConnection`, which reads chunks into its own reusable 1024-byte
buffer and fans each chunk out the same way.

Modelling conventions:
- bytes are `Nat`, payloads are `List Nat`;
- the reusable receive buffer is explicit state (`Bytes`);
- Go's `buf[:n]` is a view into the buffer (it shares the backing array),
  so a forwarding goroutine's captured `data` argument is modelled as a
  `Slice` (a length into the listener's buffer, always at offset 0); the
  bytes it actually writes are read off the buffer state current at the
  moment the write executes (`payloadWrittenAt`);
- blocking reads/accepts are modelled as an input list of events;
- log lines are modelled as structured `LogEvent`s.
-/

namespace PacketRelay

abbrev Byte := Nat
abbrev Bytes := List Byte

/-- Fixed receive-buffer size: `buf := make([]byte, 1024)` (main.go lines 77 and 130). -/
def bufSize : Nat := 1024

/-- ListenerConfig (main.go lines 13-17): one listener's configuration entry. -/
structure ListenerConfig where
  Protocol : String
  ListenAddr : String
  TargetServers : List String
deriving DecidableEq, Repr

/-- Structured log events, one constructor per `log.Printf` site in main.go. -/
inductive LogEvent where
  | unknownProtocol (p : String)
  | udpBindError (addr msg : String)
  | udpStarted (addr : String)
  | udpReadError (msg : String)
  | packetReceived (src : String)
  | resolveError (server msg : String)
  | forwardError (server msg : String)
  | forwarded (server : String)
  | tcpBindError (addr msg : String)
  | tcpStarted (addr : String)
  | acceptError (msg : String)
  | connOpened (remote : String)
  | connClosed (remote : String)
  | connReadError (msg : String)
deriving DecidableEq, Repr

/-- A Go slice expression `buf[:n]` of the listener's receive buffer: a view
(length `len` at offset 0) into the shared backing array, not a copy.  This is
exactly what the source passes to each forwarding goroutine as `data`
(main.go lines 99 and 157). -/
structure Slice where
  len : Nat
deriving DecidableEq, Repr

/-- Bytes a slice view denotes against the backing buffer contents `buf`. -/
def sliceValue (buf : Bytes) (s : Slice) : Bytes :=
  buf.take s.len

/-- Bytes actually written by a forwarding goroutine whose captured `data` is
the view `a.2`, when the write executes while the listener's buffer holds `σ`. -/
def payloadWrittenAt (σ : Bytes) (a : String × Slice) : Bytes :=
  sliceValue σ a.2

/-- Number of bytes `ReadFrom`/`Read` reports for incoming data `d`: the
datagram/chunk is truncated at the 1024-byte buffer. -/
def readLen (d : Bytes) : Nat :=
  min d.length bufSize

/-- Effect of `conn.ReadFrom(buf)` / `conn.Read(buf)` on the reusable buffer:
the first `readLen d` bytes are overwritten with the incoming data, the rest
of the buffer keeps its previous contents. -/
def readInto (buf : Bytes) (d : Bytes) : Bytes :=
  d.take bufSize ++ buf.drop (readLen d)

/-- The fan-out loop `for _, server := range targetServers { go func(server, data) ... }`
(main.go lines 86-100 and 142-158): one goroutine per target entry,
unconditionally, each capturing the same slice view of the receive buffer.
Outcomes of other attempts play no role: the loop has no conditional skip. -/
def spawnLoop : List String → Slice → List (String × Slice)
  | [], _ => []
  | t :: ts, r => (t, r) :: spawnLoop ts r

/-- Outcome of `net.ResolveUDPAddr` / `net.Dial` for one forward attempt. -/
inductive ConnectResult where
  | ok
  | err (msg : String)
deriving DecidableEq, Repr

/-- Body of one UDP forwarding goroutine (main.go lines 87-99): resolve the
target; on failure log and return without writing; on success `WriteTo` the
captured slice, whose bytes are read off the buffer state `σ` current when
the write executes.  Returns the bytes put on the wire, if any. -/
def udpForwardAttempt (σ : Bytes) (a : String × Slice) :
    ConnectResult → Option Bytes
  | .err _ => none
  | .ok => some (payloadWrittenAt σ a)

/- ### Supervisor (`main`, main.go lines 24-51) -/

/-- Worker kinds the supervisor can spawn: one per recognised protocol. -/
inductive Worker where
  | udpW (cfg : ListenerConfig)
  | tcpW (cfg : ListenerConfig)
deriving DecidableEq, Repr

/-- Dispatch body of the per-entry goroutine (main.go lines 39-45):
`if listener.Protocol == "udp" { ... } else if listener.Protocol == "tcp"
{ ... } else { log.Printf("Unknown protocol: %s", ...) }`.  Returns the
worker started (if any) and the log lines produced by the dispatch itself. -/
def startEntry (c : ListenerConfig) : Option Worker × List LogEvent :=
  if c.Protocol = "udp" then (some (.udpW c), [])
  else if c.Protocol = "tcp" then (some (.tcpW c), [])
  else (none, [.unknownProtocol c.Protocol])

/-- Workers started by the supervisor's loop over `config.Listeners`
(main.go lines 35-47), in order. -/
def startedWorkers : List ListenerConfig → List Worker
  | [] => []
  | c :: rest =>
    match (startEntry c).1 with
    | some w => w :: startedWorkers rest
    | none => startedWorkers rest

/-- Log lines produced by the supervisor's dispatch over `config.Listeners`. -/
def supervisorLogs : List ListenerConfig → List LogEvent
  | [] => []
  | c :: rest => (startEntry c).2 ++ supervisorLogs rest

/- ### Listener workers: bind step and serve loops -/

/-- Outcome of `net.ListenPacket` / `net.Listen` for one listener. -/
inductive BindResult where
  | ok
  | err (msg : String)
deriving DecidableEq, Repr

/-- Result of a listener worker's bind step. -/
inductive ListenerStart where
  | exited (logs : List LogEvent)
  | serving (logs : List LogEvent)
deriving DecidableEq, Repr

/-- Bind step of `startUDPListener` (main.go lines 68-75): on bind error log
and return (the worker exits); on success log the start and enter the read
loop. -/
def startUDPListener (cfg : ListenerConfig) : BindResult → ListenerStart
  | .err m => .exited [.udpBindError cfg.ListenAddr m]
  | .ok => .serving [.udpStarted cfg.ListenAddr]

/-- Bind step of `startTCPListener` (main.go lines 105-112): same shape as
the UDP one. -/
def startTCPListener (cfg : ListenerConfig) : BindResult → ListenerStart
  | .err m => .exited [.tcpBindError cfg.ListenAddr m]
  | .ok => .serving [.tcpStarted cfg.ListenAddr]

/-- Loop-control outcome of one iteration of a listener's primary loop. -/
inductive LoopCtl where
  | cont
  | exit
deriving DecidableEq, Repr

/-- One blocking `conn.ReadFrom(buf)` outcome in the UDP read loop. -/
inductive UdpEvent where
  | readErr (msg : String)
  | datagram (src : String) (d : Bytes)
deriving DecidableEq, Repr

/-- Result of one iteration of the UDP read loop. -/
structure UdpIter where
  logs : List LogEvent
  spawned : List (String × Slice)
  newBuf : Bytes
  ctl : LoopCtl
deriving DecidableEq, Repr

/-- One iteration of the UDP read loop (main.go lines 78-101): a read error
is logged and the loop continues; a received datagram is logged, overwrites
the front of the reusable buffer, and spawns one forwarding goroutine per
target entry, each capturing the view `buf[:n]`.  No branch exits the loop. -/
def udpIterate (targets : List String) (buf : Bytes) : UdpEvent → UdpIter
  | .readErr m => ⟨[.udpReadError m], [], buf, .cont⟩
  | .datagram src d =>
    ⟨[.packetReceived src], spawnLoop targets ⟨readLen d⟩, readInto buf d, .cont⟩

/-- State of a UDP read loop after consuming finitely many read outcomes. -/
inductive UdpLoopState where
  | servingU (spawned : List (String × Slice)) (buf : Bytes)
  | exitedU
deriving DecidableEq, Repr

/-- The UDP read loop run over a finite list of read outcomes: it exits only
if some iteration's control is `exit`. -/
def udpLoopRun (targets : List String) (buf : Bytes) : List UdpEvent → UdpLoopState
  | [] => .servingU [] buf
  | e :: rest =>
    let it := udpIterate targets buf e
    match it.ctl with
    | .exit => .exitedU
    | .cont =>
      match udpLoopRun targets it.newBuf rest with
      | .servingU s b => .servingU (it.spawned ++ s) b
      | .exitedU => .exitedU

/- ### TCP connection handler (`handleTCPConnection`, main.go lines 126-160) -/

/-- Error component of a `conn.Read` return: end-of-stream or another error. -/
inductive ReadErr where
  | eof
  | other (msg : String)
deriving DecidableEq, Repr

/-- One `conn.Read(buf)` return: the byte count `n` and the error, if any.
The source checks only `err != nil`, so `n` is carried even alongside an
error. -/
structure ConnRead where
  n : Nat
  err : Option ReadErr
deriving DecidableEq, Repr

/-- Log line the handler emits when its read loop breaks (main.go lines
134-138): connection-closed on `io.EOF`, the read error otherwise. -/
def exitLog (remote : String) : ReadErr → LogEvent
  | .eof => .connClosed remote
  | .other m => .connReadError m

/-- State of a connection handler after consuming finitely many read
returns: still blocked in its read loop, or exited (with `closed` recording
whether `defer conn.Close()` ran). -/
inductive HandlerState where
  | reading (spawned : List (String × Slice))
  | exited (spawned : List (String × Slice)) (logs : List LogEvent) (closed : Bool)
deriving DecidableEq, Repr

/-- The handler's read loop (main.go lines 127-159): any read error breaks
the loop (the bytes reported alongside it are never fanned out), after which
the deferred `conn.Close()` runs; a nil-error read of `n` bytes spawns one
forwarding goroutine per target entry capturing the view `buf[:n]` and the
loop continues. -/
def handleTCPConnection (remote : String) (targets : List String) :
    List ConnRead → HandlerState
  | [] => .reading []
  | e :: rest =>
    match e.err with
    | some k => .exited [] [exitLog remote k] true
    | none =>
      match handleTCPConnection remote targets rest with
      | .reading s => .reading (spawnLoop targets ⟨e.n⟩ ++ s)
      | .exited s ls c => .exited (spawnLoop targets ⟨e.n⟩ ++ s) ls c

/-- Forward attempts a handler state has spawned so far. -/
def HandlerState.spawned2 : HandlerState → List (String × Slice)
  | .reading s => s
  | .exited s _ _ => s

/- ### TCP accept loop (`startTCPListener`, main.go lines 114-123) -/

/-- One blocking `listener.Accept()` outcome.  An accepted connection carries
its remote address and the sequence of read returns its handler will see. -/
inductive TcpEvent where
  | acceptErr (msg : String)
  | accepted (remote : String) (reads : List ConnRead)
deriving DecidableEq, Repr

/-- Result of one iteration of the TCP accept loop. -/
structure TcpIter where
  logs : List LogEvent
  handler : Option HandlerState
  ctl : LoopCtl
deriving DecidableEq, Repr

/-- One iteration of the TCP accept loop (main.go lines 114-123): an accept
error is logged and the loop continues; an accepted connection is logged and
handed to a new concurrent `handleTCPConnection`.  No branch exits the loop. -/
def tcpIterate (targets : List String) : TcpEvent → TcpIter
  | .acceptErr m => ⟨[.acceptError m], none, .cont⟩
  | .accepted remote reads =>
    ⟨[.connOpened remote], some (handleTCPConnection remote targets reads), .cont⟩

/-- State of a TCP accept loop after consuming finitely many accept
outcomes. -/
inductive TcpLoopState where
  | servingT (handlers : List HandlerState)
  | exitedT
deriving DecidableEq, Repr

/-- The TCP accept loop run over a finite list of accept outcomes: it exits
only if some iteration's control is `exit`. -/
def tcpAcceptRun (targets : List String) : List TcpEvent → TcpLoopState
  | [] => .servingT []
  | e :: rest =>
    let it := tcpIterate targets e
    match it.ctl with
    | .exit => .exitedT
    | .cont =>
      match tcpAcceptRun targets rest with
      | .servingT hs => .servingT (it.handler.toList ++ hs)
      | .exitedT => .exitedT

/- ### Per-worker outcome, for listener independence -/

/-- Outcome of one supervisor-spawned goroutine (main.go lines 37-46), as a
function of its own configuration entry and its own bind outcome alone: the
unknown-protocol branch just logs and returns; the others run their listener
whose bind step decides exit versus serve. -/
def workerOutcome (c : ListenerConfig) (b : BindResult) : ListenerStart :=
  match (startEntry c).1 with
  | some (.udpW cfg) => startUDPListener cfg b
  | some (.tcpW cfg) => startTCPListener cfg b
  | none => .exited (startEntry c).2

/-- Outcomes of all supervisor-spawned goroutines, each paired with its own
bind outcome. -/
def workerOutcomes (entries : List (ListenerConfig × BindResult)) :
    List ListenerStart :=
  entries.map fun e => workerOutcome e.1 e.2

/- ### TCP forward attempt (goroutine body, main.go lines 143-157) -/

/-- Observable socket actions of one TCP forwarding goroutine. -/
inductive NetAction where
  | dialNew (target : String)
  | writeBytes (target : String) (payload : Bytes)
  | closeConn (target : String)
deriving DecidableEq, Repr

/-- Socket actions of one TCP forwarding goroutine holding attempt `a`,
executing while the handler's buffer holds `σ` (main.go lines 143-157): it
dials a brand-new outbound connection to its target; on dial failure it logs
and returns without a connection; on success it writes once — the bytes the
captured view `data = buf[:n]` denotes at write time — and the deferred
close shuts the connection.  No action reuses an existing connection. -/
def tcpAttemptTraceAt (σ : Bytes) (a : String × Slice) :
    ConnectResult → List NetAction
  | .err _ => [.dialNew a.1]
  | .ok => [.dialNew a.1, .writeBytes a.1 (payloadWrittenAt σ a), .closeConn a.1]

/-- Result of one successful read iteration of the connection handler. -/
structure ChunkIter where
  spawned : List (String × Slice)
  newBuf : Bytes
deriving DecidableEq, Repr

/-- One successful-read iteration of the handler's loop (main.go lines
131-158) at the payload level: chunk bytes `d` overwrite the front of the
handler's reusable buffer and one forwarding goroutine is spawned per target
entry, each capturing the view `buf[:n]`.  This refines the count-level
`handleTCPConnection` model with the buffer contents. -/
def tcpChunkIterate (targets : List String) (buf : Bytes) (d : Bytes) : ChunkIter :=
  ⟨spawnLoop targets ⟨readLen d⟩, readInto buf d⟩

/-- Write step of one TCP forwarding goroutine (main.go lines 143-157): on
dial failure nothing is written; on success `targetConn.Write(data)` puts on
the wire the bytes the captured view `data = buf[:n]` denotes against the
handler's buffer state `σ` current when the write executes.  Returns the
bytes put on the wire, if any. -/
def tcpForwardWrite (σ : Bytes) (a : String × Slice) : ConnectResult → Option Bytes
  | .err _ => none
  | .ok => some (payloadWrittenAt σ a)

/-- Forward attempts spawned per chunk over one inbound connection's chunk
sequence (main.go lines 131-158), the handler's reusable buffer state
threaded through: each chunk spawns one attempt per target entry, each
capturing the view `buf[:n]`, and each spawned attempt dials its own fresh
outbound connection (`tcpAttemptTraceAt`). -/
def chunkAttempts (targets : List String) (buf : Bytes) :
    List Bytes → List (List (String × Slice))
  | [] => []
  | c :: cs =>
    (tcpChunkIterate targets buf c).spawned ::
      chunkAttempts targets (tcpChunkIterate targets buf c).newBuf cs

/- ### Helper lemmas -/

theorem spawnLoop_length (ts : List String) (r : Slice) :
    (spawnLoop ts r).length = ts.length := by
  induction ts with
  | nil => rfl
  | cons a ts ih => simp [spawnLoop, ih]

theorem spawnLoop_count (ts : List String) (r : Slice) (t : String) :
    (spawnLoop ts r).count (t, r) = ts.count t := by
  induction ts with
  | nil => rfl
  | cons a ts ih =>
    simp only [spawnLoop, List.count_cons, ih]
    by_cases h : a = t <;> simp [h]

theorem mem_spawnLoop (ts : List String) (r : Slice) (a : String × Slice)
    (h : a ∈ spawnLoop ts r) : a.2 = r ∧ a.1 ∈ ts := by
  induction ts with
  | nil => simp [spawnLoop] at h
  | cons b ts ih =>
    simp only [spawnLoop, List.mem_cons] at h
    rcases h with h | h
    · subst h; simp
    · rcases ih h with ⟨h1, h2⟩
      exact ⟨h1, List.mem_cons_of_mem _ h2⟩

theorem startedWorkers_append (xs ys : List ListenerConfig) :
    startedWorkers (xs ++ ys) = startedWorkers xs ++ startedWorkers ys := by
  induction xs with
  | nil => rfl
  | cons c rest ih =>
    simp only [List.cons_append, startedWorkers]
    cases (startEntry c).1 <;> simp [ih]

theorem supervisorLogs_append (xs ys : List ListenerConfig) :
    supervisorLogs (xs ++ ys) = supervisorLogs xs ++ supervisorLogs ys := by
  induction xs with
  | nil => rfl
  | cons c rest ih => simp [supervisorLogs, ih]

theorem udpLoopRun_ne_exited (targets : List String) (evts : List UdpEvent) :
    ∀ buf, udpLoopRun targets buf evts ≠ UdpLoopState.exitedU := by
  induction evts with
  | nil => intro buf h; exact UdpLoopState.noConfusion h
  | cons e rest ih =>
    intro buf
    cases e with
    | readErr m =>
      simp only [udpLoopRun, udpIterate]
      cases h : udpLoopRun targets buf rest with
      | servingU s b => simp
      | exitedU => exact absurd h (ih buf)
    | datagram src d =>
      simp only [udpLoopRun, udpIterate]
      cases h : udpLoopRun targets (readInto buf d) rest with
      | servingU s b => simp
      | exitedU => exact absurd h (ih _)

theorem tcpAcceptRun_ne_exited (targets : List String) (evts : List TcpEvent) :
    tcpAcceptRun targets evts ≠ TcpLoopState.exitedT := by
  induction evts with
  | nil => intro h; exact TcpLoopState.noConfusion h
  | cons e rest ih =>
    cases e with
    | acceptErr m =>
      simp only [tcpAcceptRun, tcpIterate]
      cases h : tcpAcceptRun targets rest with
      | servingT hs => simp
      | exitedT => exact absurd h ih
    | accepted remote reads =>
      simp only [tcpAcceptRun, tcpIterate]
      cases h : tcpAcceptRun targets rest with
      | servingT hs => simp
      | exitedT => exact absurd h ih

/- ### Claim theorems -/

/-- C2: for every InboundUnit (read slice `r`) and target list, the fan-out
loop creates exactly one ForwardAttempt per target entry — the attempt list
has exactly the targets' length, a target occurring k times receives exactly
k attempts, and every attempt carries the unit's slice and one of the
configured targets.  The loop consults no attempt outcome, so the result is
outcome-independent by construction. -/
theorem C2_one_attempt_per_target (targets : List String) (r : Slice) (t : String) :
    (spawnLoop targets r).length = targets.length ∧
    (spawnLoop targets r).count (t, r) = targets.count t ∧
    ∀ a ∈ spawnLoop targets r, a.2 = r ∧ a.1 ∈ targets := by
  exact ⟨spawnLoop_length targets r, spawnLoop_count targets r t,
    fun a ha => mem_spawnLoop targets r a ha⟩

/-- Witness for C2 at a concrete input: three target entries with one
duplicate yield three attempts, two of them to the duplicated target. -/
theorem C2_one_attempt_per_target_witness :
    (spawnLoop ["a", "b", "a"] ⟨3⟩).length = 3 ∧
    (spawnLoop ["a", "b", "a"] ⟨3⟩).count ("a", ⟨3⟩) = 2 ∧
    (("b", (⟨3⟩ : Slice)).2 = ⟨3⟩ ∧ ("b", (⟨3⟩ : Slice)).1 ∈ ["a", "b", "a"]) := by
  have h := C2_one_attempt_per_target ["a", "b", "a"] ⟨3⟩ "a"
  exact ⟨h.1, h.2.1, h.2.2 ("b", ⟨3⟩) (by decide)⟩

/-- C9: protocol dispatch is an exact, case-sensitive string comparison — a
worker is started for an entry iff its protocol field is exactly `"udp"` or
`"tcp"`; in particular `"UDP"` and `"TCP"` start no worker and are logged as
unknown protocols. -/
theorem C9_case_sensitive_dispatch :
    (∀ c : ListenerConfig,
      (startEntry c).1.isSome = true ↔ c.Protocol = "udp" ∨ c.Protocol = "tcp") ∧
    (∀ a ts, (startEntry ⟨"UDP", a, ts⟩).1 = none ∧
      (startEntry ⟨"TCP", a, ts⟩).1 = none ∧
      (startEntry ⟨"UDP", a, ts⟩).2 = [.unknownProtocol "UDP"] ∧
      (startEntry ⟨"TCP", a, ts⟩).2 = [.unknownProtocol "TCP"]) := by
  constructor
  · intro c
    by_cases h1 : c.Protocol = "udp" <;> by_cases h2 : c.Protocol = "tcp" <;>
      simp [startEntry, h1, h2]
  · intro a ts
    exact ⟨rfl, rfl, rfl, rfl⟩

/-- C4: a configuration entry whose protocol is neither `"udp"` nor `"tcp"`
starts no worker and produces exactly one unknown-protocol diagnostic, while
every other entry in the same configuration still starts exactly the worker
it would have started without the bad entry. -/
theorem C4_unknown_protocol_isolated (xs ys : List ListenerConfig)
    (c : ListenerConfig) (h1 : c.Protocol ≠ "udp") (h2 : c.Protocol ≠ "tcp") :
    startedWorkers (xs ++ c :: ys) = startedWorkers (xs ++ ys) ∧
    startedWorkers (xs ++ c :: ys) = startedWorkers xs ++ startedWorkers ys ∧
    supervisorLogs (xs ++ c :: ys) =
      supervisorLogs xs ++ LogEvent.unknownProtocol c.Protocol :: supervisorLogs ys := by
  have hw : (startEntry c).1 = none := by simp [startEntry, h1, h2]
  have hl : (startEntry c).2 = [.unknownProtocol c.Protocol] := by
    simp [startEntry, h1, h2]
  refine ⟨?_, ?_, ?_⟩ <;>
    simp [startedWorkers_append, supervisorLogs_append, startedWorkers,
      supervisorLogs, hw, hl]

/-- Witness for C4 at the spec's concrete scenario: an `"sctp"` entry between
a udp and a tcp entry starts no worker, logs one diagnostic, and leaves the
siblings' workers exactly as without it. -/
theorem C4_unknown_protocol_isolated_witness :
    startedWorkers [⟨"udp", "a", ["t1"]⟩, ⟨"sctp", "b", ["t3"]⟩, ⟨"tcp", "c", ["t2"]⟩] =
      startedWorkers [⟨"udp", "a", ["t1"]⟩, ⟨"tcp", "c", ["t2"]⟩] ∧
    startedWorkers [⟨"udp", "a", ["t1"]⟩, ⟨"sctp", "b", ["t3"]⟩, ⟨"tcp", "c", ["t2"]⟩] =
      startedWorkers [⟨"udp", "a", ["t1"]⟩] ++ startedWorkers [⟨"tcp", "c", ["t2"]⟩] ∧
    supervisorLogs [⟨"udp", "a", ["t1"]⟩, ⟨"sctp", "b", ["t3"]⟩, ⟨"tcp", "c", ["t2"]⟩] =
      supervisorLogs [⟨"udp", "a", ["t1"]⟩] ++
        LogEvent.unknownProtocol "sctp" :: supervisorLogs [⟨"tcp", "c", ["t2"]⟩] :=
  C4_unknown_protocol_isolated [⟨"udp", "a", ["t1"]⟩] [⟨"tcp", "c", ["t2"]⟩]
    ⟨"sctp", "b", ["t3"]⟩ (by decide) (by decide)

/-- C5: a bind failure is logged and exits only the failing listener's
worker (UDP and TCP alike); neither serve loop can exit on any sequence of
read/accept outcomes, so bind failure is the only condition under which a
listener worker terminates; and each spawned worker's outcome is a function
of its own entry and bind outcome alone, so siblings are unaffected. -/
theorem C5_bind_failure_only_exit :
    (∀ cfg m, startUDPListener cfg (.err m) =
      .exited [.udpBindError cfg.ListenAddr m]) ∧
    (∀ cfg m, startTCPListener cfg (.err m) =
      .exited [.tcpBindError cfg.ListenAddr m]) ∧
    (∀ targets buf evts, udpLoopRun targets buf evts ≠ .exitedU) ∧
    (∀ targets evts, tcpAcceptRun targets evts ≠ .exitedT) ∧
    (∀ xs c b ys, workerOutcomes (xs ++ (c, b) :: ys) =
      workerOutcomes xs ++ workerOutcome c b :: workerOutcomes ys) := by
  refine ⟨fun cfg m => rfl, fun cfg m => rfl, ?_, ?_, ?_⟩
  · intro targets buf evts
    exact udpLoopRun_ne_exited targets evts buf
  · intro targets evts
    exact tcpAcceptRun_ne_exited targets evts
  · intro xs c b ys
    simp [workerOutcomes]

/-- C7: a UDP read error and a TCP accept error are each logged and leave
the loop control at `cont`; running the loop past such an error gives
exactly the state the loop reaches without it; the loop never terminates on
them. -/
theorem C7_loop_errors_nonfatal (targets : List String) (buf : Bytes)
    (m : String) (rest : List UdpEvent) (trest : List TcpEvent) :
    (udpIterate targets buf (.readErr m)).ctl = .cont ∧
    (udpIterate targets buf (.readErr m)).logs = [.udpReadError m] ∧
    udpLoopRun targets buf (.readErr m :: rest) = udpLoopRun targets buf rest ∧
    (tcpIterate targets (.acceptErr m)).ctl = .cont ∧
    (tcpIterate targets (.acceptErr m)).logs = [.acceptError m] ∧
    tcpAcceptRun targets (.acceptErr m :: trest) = tcpAcceptRun targets trest := by
  refine ⟨rfl, rfl, ?_, rfl, rfl, ?_⟩
  · simp only [udpLoopRun, udpIterate]
    cases h : udpLoopRun targets buf rest with
    | servingU s b => simp
    | exitedU => rfl
  · simp only [tcpAcceptRun, tcpIterate]
    cases h : tcpAcceptRun targets trest with
    | servingT hs => simp
    | exitedT => rfl

/-- C8: the connection handler exits its read loop on end-of-stream (logging
connection-closed) and on any other read error (logging it); every exit of
the handler has the connection closed (the deferred close), and the exit log
is exactly the one for the error that ended the loop. -/
theorem C8_handler_exit_and_close (remote : String) (targets : List String) :
    (∀ n k rest, handleTCPConnection remote targets (⟨n, some k⟩ :: rest) =
      .exited [] [exitLog remote k] true) ∧
    (∀ evts s ls c, handleTCPConnection remote targets evts = .exited s ls c →
      c = true ∧ ∃ k, ls = [exitLog remote k]) ∧
    exitLog remote .eof = .connClosed remote ∧
    (∀ m, exitLog remote (.other m) = .connReadError m) := by
  refine ⟨fun n k rest => rfl, ?_, rfl, fun m => rfl⟩
  intro evts
  induction evts with
  | nil =>
    intro s ls c h
    simp [handleTCPConnection] at h
  | cons e rest ih =>
    intro s ls c h
    cases he : e.err with
    | some k =>
      rw [handleTCPConnection, he] at h
      simp only [HandlerState.exited.injEq] at h
      exact ⟨h.2.2.symm, k, h.2.1.symm⟩
    | none =>
      rw [handleTCPConnection, he] at h
      cases hr : handleTCPConnection remote targets rest with
      | reading s2 =>
        rw [hr] at h
        exact HandlerState.noConfusion h
      | exited s2 ls2 c2 =>
        rw [hr] at h
        simp only [HandlerState.exited.injEq] at h
        rcases ih s2 ls2 c2 hr with ⟨h1, k, h2⟩
        exact ⟨h.2.2 ▸ h1, k, h.2.1 ▸ h2⟩

/-- Witness for C8 at a concrete input: a handler that reads one 2-byte
chunk and then hits end-of-stream exits with the connection closed and the
connection-closed log. -/
theorem C8_handler_exit_and_close_witness :
    true = true ∧ ∃ k, [LogEvent.connClosed "r"] = [exitLog "r" k] :=
  (C8_handler_exit_and_close "r" ["a"]).2.1 [⟨2, none⟩, ⟨0, some .eof⟩]
    [("a", ⟨2⟩)] [.connClosed "r"] true (by decide)

/-- C10: a read that returns an error together with n bytes (any n,
including n > 0) discards those bytes — the handler exits at once and
spawns no forward attempt for them; a read returning nil error with n = 0
is fanned out to all targets (one attempt per target entry, with an empty
view). -/
theorem C10_error_discards_nil_fans_out (remote : String)
    (targets : List String) (n : Nat) (k : ReadErr) (rest : List ConnRead) :
    (handleTCPConnection remote targets (⟨n, some k⟩ :: rest)).spawned2 = [] ∧
    handleTCPConnection remote targets (⟨n, some k⟩ :: rest) =
      .exited [] [exitLog remote k] true ∧
    (handleTCPConnection remote targets (⟨0, none⟩ :: rest)).spawned2 =
      spawnLoop targets ⟨0⟩ ++ (handleTCPConnection remote targets rest).spawned2 ∧
    (spawnLoop targets ⟨0⟩).length = targets.length := by
  refine ⟨rfl, rfl, ?_, spawnLoop_length targets ⟨0⟩⟩
  simp only [handleTCPConnection]
  cases h : handleTCPConnection remote targets rest with
  | reading s => simp [HandlerState.spawned2]
  | exited s ls c => simp [HandlerState.spawned2]

theorem spawnLoop_countP (ts : List String) (r : Slice) (t : String) :
    (spawnLoop ts r).countP (fun a => a.1 == t) = ts.count t := by
  induction ts with
  | nil => rfl
  | cons a ts ih =>
    by_cases h : a = t <;>
      simp [spawnLoop, List.countP_cons, ih, List.count_cons, h]

theorem chunkAttempts_countP_sum (targets : List String) (cs : List Bytes)
    (t : String) :
    ∀ buf, ((chunkAttempts targets buf cs).map
      (fun l => l.countP (fun x => x.1 == t))).sum =
      cs.length * targets.count t := by
  induction cs with
  | nil => intro buf; simp [chunkAttempts]
  | cons c cs ih =>
    intro buf
    simp only [chunkAttempts, List.map_cons, List.sum_cons, ih,
      tcpChunkIterate, spawnLoop_countP, List.length_cons]
    ring

theorem readInto_take (buf d : Bytes) :
    (readInto buf d).take (readLen d) = d.take bufSize := by
  have h : (d.take bufSize).length = readLen d := by
    simp [readLen, List.length_take, Nat.min_comm]
  unfold readInto
  rw [← h, List.take_left]

theorem tcpChunkIterate_consistent (remote : String) (targets : List String)
    (buf d : Bytes) (rest : List ConnRead) :
    (handleTCPConnection remote targets (⟨readLen d, none⟩ :: rest)).spawned2 =
      (tcpChunkIterate targets buf d).spawned ++
        (handleTCPConnection remote targets rest).spawned2 := by
  simp only [handleTCPConnection, tcpChunkIterate]
  cases h : handleTCPConnection remote targets rest with
  | reading s => simp [HandlerState.spawned2]
  | exited s ls c => simp [HandlerState.spawned2]

/- ### Concrete inputs for the shared-buffer claims -/

/-- Initial receive buffer `make([]byte, 1024)`: 1024 zero bytes. -/
def buf0 : Bytes := List.replicate bufSize 0

/-- Bytes of the datagram payload b"hello". -/
def helloBytes : Bytes := [104, 101, 108, 108, 111]

/-- Bytes of the datagram payload b"bye". -/
def byeBytes : Bytes := [98, 121, 101]

/-- C1 fails on the code: the `data` argument handed to each forwarding
goroutine is the view `buf[:n]` into the listener's reusable receive buffer,
not a copy.  Reading b"hello" spawns an attempt holding a length-5 view;
after the next read overwrites the buffer with b"bye", that still-in-flight
attempt writes [98,121,101,108,111] (b"byelo"), not b"hello": payload bytes
of back-to-back units cross-contaminate. -/
theorem C1_shared_buffer_contamination :
    (udpIterate ["10.0.0.1:9101"] buf0 (.datagram "cli" helloBytes)).spawned =
      [("10.0.0.1:9101", ⟨5⟩)] ∧
    ((udpIterate ["10.0.0.1:9101"] buf0 (.datagram "cli" helloBytes)).newBuf).take 5 =
      helloBytes ∧
    payloadWrittenAt
      ((udpIterate ["10.0.0.1:9101"]
        ((udpIterate ["10.0.0.1:9101"] buf0 (.datagram "cli" helloBytes)).newBuf)
        (.datagram "cli" byeBytes)).newBuf)
      ("10.0.0.1:9101", ⟨5⟩) = [98, 121, 101, 108, 111] ∧
    ([98, 121, 101, 108, 111] : Bytes) ≠ helloBytes := by
  refine ⟨rfl, by decide, by decide, by decide⟩

/-- Bytes of the chunk payload b"abc". -/
def abcBytes : Bytes := [97, 98, 99]

/-- Bytes of the chunk payload b"XY". -/
def xyBytes : Bytes := [88, 89]

/-- Counterexample to C3 as stated: a forward attempt that reaches the write
step does not always write the bytes read for its unit.  After reading
b"abc" (spawning an attempt holding the view `buf[:3]`) the next read
overwrites the buffer with b"XY"; the attempt's write then puts
[88,89,99] (b"XYc") on the wire, not b"abc". -/
theorem C3_stale_write_counterexample :
    (udpIterate ["t2"] buf0 (.datagram "c" abcBytes)).spawned = [("t2", ⟨3⟩)] ∧
    udpForwardAttempt
      ((udpIterate ["t2"]
        ((udpIterate ["t2"] buf0 (.datagram "c" abcBytes)).newBuf)
        (.datagram "c" xyBytes)).newBuf)
      ("t2", ⟨3⟩) .ok = some [88, 89, 99] ∧
    some ([88, 89, 99] : Bytes) ≠ some abcBytes := by
  refine ⟨rfl, by decide, by decide⟩

/-- C3 amended: for every unit — UDP datagram or TCP chunk — and every
target whose forward attempt reaches the write step, the bytes put on the
wire equal exactly the bytes read for that unit (truncated only at the
fixed 1024-byte cap, with no framing, header, or transformation) — provided
the write executes before the listener's or handler's next read overwrites
the shared receive buffer (here: at the buffer state the unit's own read
produced). -/
theorem C3_byte_exact_at_read_state (targets : List String) (buf : Bytes)
    (src : String) (d : Bytes) (a : String × Slice) :
    (a ∈ (udpIterate targets buf (.datagram src d)).spawned →
      udpForwardAttempt ((udpIterate targets buf (.datagram src d)).newBuf) a .ok =
        some (d.take bufSize)) ∧
    (a ∈ (tcpChunkIterate targets buf d).spawned →
      tcpForwardWrite ((tcpChunkIterate targets buf d).newBuf) a .ok =
        some (d.take bufSize)) := by
  constructor
  · intro h
    have h2 := mem_spawnLoop targets ⟨readLen d⟩ a h
    simp only [udpIterate, udpForwardAttempt, payloadWrittenAt, sliceValue, h2.1]
    rw [readInto_take]
  · intro h
    have h2 := mem_spawnLoop targets ⟨readLen d⟩ a h
    simp only [tcpChunkIterate, tcpForwardWrite, payloadWrittenAt, sliceValue, h2.1]
    rw [readInto_take]

/-- Witness for C3 at concrete inputs: reading b"hi" — as a UDP datagram and
as a TCP chunk — and writing before any further read forwards exactly b"hi"
on both paths. -/
theorem C3_byte_exact_at_read_state_witness :
    udpForwardAttempt
      ((udpIterate ["w"] buf0 (.datagram "c" [104, 105])).newBuf)
      ("w", ⟨2⟩) .ok = some [104, 105] ∧
    tcpForwardWrite ((tcpChunkIterate ["w"] buf0 [104, 105]).newBuf)
      ("w", ⟨2⟩) .ok = some [104, 105] :=
  ⟨(C3_byte_exact_at_read_state ["w"] buf0 "c" [104, 105] ("w", ⟨2⟩)).1 (by decide),
   (C3_byte_exact_at_read_state ["w"] buf0 "c" [104, 105] ("w", ⟨2⟩)).2 (by decide)⟩

/-- Counterexample to C6 as stated: the claim's "writes the chunk" conjunct
fails under the shared-buffer race.  A chunk b"def" is read and its attempt
spawned holding the view `buf[:3]`; the handler's next read overwrites the
buffer with b"ZZ"; the attempt's fresh outbound connection then carries
b"ZZf" ([90,90,102]), not b"def". -/
theorem C6_stale_chunk_write_counterexample :
    (tcpChunkIterate ["s2"] buf0 [100, 101, 102]).spawned = [("s2", ⟨3⟩)] ∧
    tcpForwardWrite
      ((tcpChunkIterate ["s2"]
        ((tcpChunkIterate ["s2"] buf0 [100, 101, 102]).newBuf)
        [90, 90]).newBuf)
      ("s2", ⟨3⟩) .ok = some [90, 90, 102] ∧
    some ([90, 90, 102] : Bytes) ≠ some [100, 101, 102] := by
  refine ⟨rfl, by decide, by decide⟩

/-- C6 amended: every TCP forward attempt dials a brand-new outbound
connection for itself alone — one fresh dial per target entry per chunk,
never reused across chunks — writes once and closes it, so no persistent
per-target connection exists and a client writing two chunks on one inbound
connection causes the target to receive two separate connections; the bytes
written on each connection are those the captured `buf[:n]` view denotes at
write time, which are exactly the chunk's bytes when the write executes
before the handler's next read (as in the concrete two-chunk scenario
closing the statement). -/
theorem C6_new_connection_per_chunk (targets : List String) (buf σ c : Bytes)
    (chunks : List Bytes) (t : String) (a : String × Slice) :
    tcpAttemptTraceAt σ a .ok =
      [.dialNew a.1, .writeBytes a.1 (payloadWrittenAt σ a), .closeConn a.1] ∧
    (∀ m, tcpAttemptTraceAt σ a (.err m) = [.dialNew a.1]) ∧
    ((chunkAttempts targets buf chunks).map
      (fun l => l.countP (fun x => x.1 == t))).sum =
      chunks.length * targets.count t ∧
    (a ∈ (tcpChunkIterate targets buf c).spawned →
      tcpForwardWrite ((tcpChunkIterate targets buf c).newBuf) a .ok =
        some (c.take bufSize)) ∧
    chunkAttempts ["s"] buf0 [[97, 98, 99], [100, 101, 102]] =
      [[("s", ⟨3⟩)], [("s", ⟨3⟩)]] ∧
    tcpForwardWrite ((tcpChunkIterate ["s"] buf0 [97, 98, 99]).newBuf)
      ("s", ⟨3⟩) .ok = some [97, 98, 99] ∧
    tcpForwardWrite
      ((tcpChunkIterate ["s"] (tcpChunkIterate ["s"] buf0 [97, 98, 99]).newBuf
        [100, 101, 102]).newBuf)
      ("s", ⟨3⟩) .ok = some [100, 101, 102] := by
  refine ⟨rfl, fun m => rfl, chunkAttempts_countP_sum targets chunks t buf, ?_,
    by decide, by decide, by decide⟩
  intro h
  have h2 := mem_spawnLoop targets ⟨readLen c⟩ a h
  simp only [tcpChunkIterate, tcpForwardWrite, payloadWrittenAt, sliceValue, h2.1]
  rw [readInto_take]

/-- Witness for C6 at a concrete input: a chunk b"de" whose attempt writes
at the state its own read produced puts exactly b"de" on its fresh
connection. -/
theorem C6_new_connection_per_chunk_witness :
    tcpForwardWrite ((tcpChunkIterate ["w2"] buf0 [100, 101]).newBuf)
      ("w2", ⟨2⟩) .ok = some [100, 101] :=
  ((C6_new_connection_per_chunk ["w2"] buf0 buf0 [100, 101] [] "w2"
    ("w2", ⟨2⟩)).2.2.2.1) (by decide)

end PacketRelay
